import Mathlib

/-!
Verification development for the LeRobot_CamRec recorder
(`src/record_dataset.py`).  The recorder's episode loop, camera
handling and metadata file writes are shallowly embedded below;
machine state that the Python code keeps implicitly (open cameras,
video writers, jsonl files) is made explicit.  Times returned by
`time.time()` are modelled as rational numbers supplied by the
environment; frames are opaque natural-number identifiers.
-/

namespace CamRec

/-- One loop iteration's inputs from the environment: per-camera read
results (`reader.read()` for camera index `i`), and the values the
three `time.time()` calls of that iteration return (`loop_start`, the
timestamp read, and the pacing read). -/
structure Tick where
  reads : Nat → Bool × Nat
  tStart : ℚ
  tStamp : ℚ
  tPace : ℚ

/-- One element of `rows`: `{"timestamp": ..., "frame": frame_count}`. -/
structure Row where
  timestamp : ℚ
  frame : Nat
deriving DecidableEq

/-- The episode loop's mutable state: `frame_count`, `rows`, and the
`vw_writers` dict (per camera, `none` until initialized; a created
writer is represented by the number of frames written to it). -/
structure EpState where
  frameCount : Nat
  rows : List Row
  writers : List (Option Nat)
deriving DecidableEq

/-- Reads cameras `i, i+1, ...` (`k` of them) in order, stopping at the
first failed read, as the `for name, reader in cam_readers.items()`
loop with its `break` does.  Returns `none` when some read failed. -/
def readCamsAux (t : Tick) (i : Nat) : Nat → Option (List Nat)
  | 0 => some []
  | k + 1 =>
    let r := t.reads i
    if r.1 then (readCamsAux t (i + 1) k).map (fun l => r.2 :: l) else none

/-- Reads all `n` configured cameras for one tick; `none` iff some
camera reported `ok = False` (the whole tick is then discarded). -/
def readCams (t : Tick) (n : Nat) : Option (List Nat) :=
  readCamsAux t 0 n

/-- State update of one fully successful tick: initialize all video
writers if any is still `None` (first successful tick), write one frame
to each writer, append `{"timestamp": now - start_t, "frame":
frame_count}` to `rows`, and increment `frame_count`. -/
def succStep (st : ℚ) (t : Tick) (frames : List Nat) (s : EpState) : EpState :=
  let ws := if s.writers.any Option.isNone
    then frames.map (fun _ => (some 0 : Option Nat)) else s.writers
  let ws := List.zipWith (fun w _ => Option.map (· + 1) w) ws frames
  { frameCount := s.frameCount + 1
    rows := s.rows ++ [{ timestamp := t.tStamp - st, frame := s.frameCount }]
    writers := ws }

/-- Outcome of one loop iteration: continue (recording, optionally, the
pacing sleep performed at the end of the iteration), or break out of
the loop via the `min_frames` check. -/
inductive StepOut where
  | cont (s : EpState) (sleep : Option ℚ)
  | brk (s : EpState)
deriving DecidableEq

/-- State carried out of a loop iteration. -/
def StepOut.state : StepOut → EpState
  | .cont s _ => s
  | .brk s => s

/-- The pacing sleep performed by a loop iteration, if any. -/
def StepOut.sleep : StepOut → Option ℚ
  | .cont _ sl => sl
  | .brk _ => none

/-- One iteration of the `while` body (lines 152-198 of
`record_dataset.py`): read all cameras; on any failure `continue`
immediately (no writes, no row, no sleep); otherwise perform the
successful-tick update, break if `frame_count >= min_frames`, else
sleep for `1/fps - (time.time() - loop_start)` when positive. -/
def tickStep (fps minFrames : ℤ) (n : Nat) (st : ℚ) (t : Tick) (s : EpState) : StepOut :=
  match readCams t n with
  | none => .cont s none
  | some frames =>
    let s' := succStep st t frames s
    if minFrames ≤ (s'.frameCount : ℤ) then .brk s'
    else
      let dt : ℚ := 1 / (fps : ℚ) - (t.tPace - t.tStart)
      .cont s' (if 0 < dt then some dt else none)

/-- Result of running the episode loop on a finite trace of ticks:
either the loop exited on its own (guard false or `min_frames` break),
or the supplied trace ran out while the loop still wanted to continue
(`outOfTicks`: every further environment behaviour extending the trace
keeps the loop running). -/
inductive EpResult where
  | finished (s : EpState)
  | outOfTicks (s : EpState)
deriving DecidableEq

/-- The `while frame_count < max_frames` loop, driven by a finite trace
of environment ticks. -/
def epLoop (fps minFrames maxFrames : ℤ) (st : ℚ) (n : Nat) :
    List Tick → EpState → EpResult
  | [], s =>
    if (s.frameCount : ℤ) < maxFrames then .outOfTicks s else .finished s
  | t :: rest, s =>
    if (s.frameCount : ℤ) < maxFrames then
      match tickStep fps minFrames n st t s with
      | .cont s' _ => epLoop fps minFrames maxFrames st n rest s'
      | .brk s' => .finished s'
    else .finished s

/-- Every state the loop passes through while consuming the trace
(including the initial and final ones). -/
def epStates (fps minFrames maxFrames : ℤ) (st : ℚ) (n : Nat) :
    List Tick → EpState → List EpState
  | [], s => [s]
  | t :: rest, s =>
    if (s.frameCount : ℤ) < maxFrames then
      match tickStep fps minFrames n st t s with
      | .cont s' _ => s :: epStates fps minFrames maxFrames st n rest s'
      | .brk s' => [s, s']
    else [s]

/-- The state the loop ends in (whether it finished or ran out of
trace). -/
def resultState : EpResult → EpState
  | .finished s => s
  | .outOfTicks s => s

/-- Episode-start state: `frame_count = 0`, empty `rows`, all `n` video
writers `None`. -/
def initEp (n : Nat) : EpState :=
  { frameCount := 0, rows := [], writers := List.replicate n none }

/-- `for vw in vw_writers.values(): vw.release()` — releasing a writer
that was never initialized calls `.release()` on `None`, which raises
`AttributeError`. -/
def releaseWriters : List (Option Nat) → Except String Unit
  | [] => .ok ()
  | none :: _ => .error "AttributeError: NoneType object has no attribute release"
  | some _ :: rest => releaseWriters rest

/-! ## Run-level model: arguments, file system, cameras, metadata -/

/-- The command-line arguments of `record_dataset.py` (`parse_args`). -/
structure Args where
  episodes : Nat
  duration : ℚ
  minFrames : ℤ
  fps : ℤ
  camera : Option (List String)
  width : ℤ
  height : ℤ
  task : String

/-- `max_frames = math.ceil(args.duration * args.fps)`. -/
def maxFrames (args : Args) : ℤ :=
  ⌈args.duration * (args.fps : ℚ)⌉

/-- The part of a camera spec before the first `=`
(`spec.split("=", 1)[0]`). -/
def specName (spec : String) : String :=
  String.mk (spec.toList.takeWhile (fun c => c ≠ '='))

/-- The part of a camera spec after the first `=`
(`spec.split("=", 1)[1]`). -/
def specIdxStr (spec : String) : String :=
  String.mk ((spec.toList.dropWhile (fun c => c ≠ '=')).drop 1)

/-- Python-dict insertion `cam_specs[name] = idx`: overrides the value
in place if the key is present, otherwise appends. -/
def dictInsert (d : List (String × ℤ)) (k : String) (v : ℤ) : List (String × ℤ) :=
  if d.any (fun p => decide (p.1 = k)) then
    d.map (fun p => if p.1 = k then (k, v) else p)
  else d ++ [(k, v)]

/-- Decimal digit accumulation for the `int()` model. -/
def digitsToNatGo (acc : Nat) : List Char → Option Nat
  | [] => some acc
  | c :: rest =>
    if c.isDigit then digitsToNatGo (acc * 10 + (c.toNat - '0'.toNat)) rest
    else none

/-- Digits of a nonempty decimal literal, else `none`. -/
def digitsToNat : List Char → Option Nat
  | [] => none
  | l => digitsToNatGo 0 l

/-- Python's `int()` on the plain decimal forms the tool receives
(optional leading `-` followed by digits); anything else raises
`ValueError`, modelled as `none`. -/
def strToInt (s : String) : Option ℤ :=
  match s.toList with
  | '-' :: rest => (digitsToNat rest).map (fun m => -(m : ℤ))
  | l => (digitsToNat l).map (fun m => (m : ℤ))

/-- The `for spec in args.camera` parsing loop: raise on a spec without
`=`, otherwise split once at `=` and convert the index with `int()`
(which also raises on garbage). -/
def parseCamerasGo : List String → List (String × ℤ) → Except String (List (String × ℤ))
  | [], acc => .ok acc
  | spec :: rest, acc =>
    if '=' ∈ spec.toList then
      match strToInt (specIdxStr spec) with
      | some i => parseCamerasGo rest (dictInsert acc (specName spec) i)
      | none => .error "invalid literal for int"
    else .error "--camera argument must have the form name=index"

/-- Camera-spec parsing (lines 99-107): default `{"front": 0}` when no
`--camera` was given, otherwise parse every spec string. -/
def parseCameras : Option (List String) → Except String (List (String × ℤ))
  | none => .ok [("front", 0)]
  | some specs => parseCamerasGo specs []

/-- The environment a run interacts with: whether opening device `i`
succeeds, and the tick trace and `start_t` clock value of each episode. -/
structure Env where
  openOk : ℤ → Bool
  ticks : Nat → List Tick
  startT : Nat → ℚ

/-- The dataset files the recorder touches.  `none` models an absent
file; jsonl files are line lists, `info` holds the fps last written. -/
structure FS where
  info : Option ℤ
  tasks : Option (List (Nat × String))
  episodes : Option (List (Nat × Nat))
  episodesStats : Option (List (Nat × Nat))
  dataFiles : List (String × List Row)
deriving DecidableEq

/-- Observable actions of a run, in program order. -/
inductive Event where
  | mkdir (d : String)
  | writeInfo
  | writeTasks
  | openCam (idx : ℤ)
  | releaseCam (idx : ℤ)
deriving DecidableEq

/-- Is the event one of the metadata writes that precede camera
opening (directory creation, `info.json`, `tasks.jsonl`)? -/
def Event.isMeta : Event → Prop
  | .mkdir _ => True
  | .writeInfo => True
  | .writeTasks => True
  | _ => False

/-- Is the event a camera-open attempt? -/
def Event.isOpen : Event → Prop
  | .openCam _ => True
  | _ => False

/-- Is the event a camera release? -/
def Event.isRelease : Event → Prop
  | .releaseCam _ => True
  | _ => False

instance : DecidablePred Event.isMeta := by
  intro e; cases e <;> simp [Event.isMeta] <;> infer_instance

instance : DecidablePred Event.isOpen := by
  intro e; cases e <;> simp [Event.isOpen] <;> infer_instance

instance : DecidablePred Event.isRelease := by
  intro e; cases e <;> simp [Event.isRelease] <;> infer_instance

/-- How a run ends: normally, with a propagated exception, or never
(the episode loop retries failed ticks forever). -/
inductive RunEnd where
  | ok
  | err (msg : String)
  | diverged
deriving DecidableEq

/-- A run's outcome: final file-system contents, the event trace it
produced, and how it ended. -/
structure RunOutcome where
  fs : FS
  events : List Event
  result : RunEnd
deriving DecidableEq

/-- Directory creation plus the metadata writes of lines 117-127:
`mkdir` for meta/data/video directories, then `info.json`
unconditionally, then `tasks.jsonl` only when the file is absent. -/
def metaPhase (args : Args) (cams : List (String × ℤ)) (fs : FS) : FS × List Event :=
  let dirEvs := [Event.mkdir "meta", Event.mkdir "data/chunk-000"] ++
    cams.map (fun c => Event.mkdir ("videos/chunk-000/observation.images." ++ c.1))
  let fs1 := { fs with info := some args.fps }
  match fs.tasks with
  | none =>
    ({ fs1 with tasks := some [(0, args.task)] },
      dirEvs ++ [Event.writeInfo, Event.writeTasks])
  | some _ => (fs1, dirEvs ++ [Event.writeInfo])

/-- The camera-open loop of lines 133-137: open each configured camera
in order; the first failure raises immediately (cameras opened earlier
are left open — the loop runs before the `try` block). -/
def openPhase (openOk : ℤ → Bool) : List (String × ℤ) → List Event × Except String Unit
  | [] => ([], .ok ())
  | c :: rest =>
    if openOk c.2 then
      let r := openPhase openOk rest
      (Event.openCam c.2 :: r.1, r.2)
    else ([Event.openCam c.2], .error "cannot open camera")

/-- `episode_%06d` zero-padding. -/
def pad6 (s : String) : String :=
  String.mk (List.replicate (6 - s.length) '0') ++ s

/-- `_make_episode_name`. -/
def epName (ep : Nat) : String :=
  "episode_" ++ pad6 (toString ep)

/-- One iteration of `for ep in range(args.episodes)`: run the episode
loop; if the finite trace ran out the run diverges (the real loop never
returns); otherwise release the video writers (raising on `None`), then
write the parquet table and append to `episodes.jsonl` and
`episodes_stats.jsonl`. -/
def runEpisode (args : Args) (env : Env) (n : Nat) (ep : Nat) (fs : FS) : FS ⊕ RunEnd :=
  match epLoop args.fps args.minFrames (maxFrames args) (env.startT ep) n
      (env.ticks ep) (initEp n) with
  | .outOfTicks _ => .inr .diverged
  | .finished s =>
    match releaseWriters s.writers with
    | .error e => .inr (.err e)
    | .ok _ =>
      .inl { fs with
        dataFiles := fs.dataFiles ++ [(epName ep, s.rows)]
        episodes := some (fs.episodes.getD [] ++ [(ep, s.frameCount)])
        episodesStats := some (fs.episodesStats.getD [] ++ [(ep, s.frameCount)]) }

/-- The whole `for ep in range(args.episodes)` loop, `k` episodes
remaining, next episode index `ep`. -/
def runEpisodes (args : Args) (env : Env) (n : Nat) : Nat → Nat → FS → FS × RunEnd
  | 0, _, fs => (fs, .ok)
  | k + 1, ep, fs =>
    match runEpisode args env n ep fs with
    | .inl fs' => runEpisodes args env n k (ep + 1) fs'
    | .inr e => (fs, e)

/-- `record_dataset(args)`: parse camera specs, reject an empty camera
set, create directories and write metadata, open all cameras (aborting
on the first failure without releasing the earlier ones), then run the
episode loop under `try`/`finally`; the `finally` releases every camera
unless the episode loop never returns. -/
def recordDataset (args : Args) (env : Env) (fs0 : FS) : RunOutcome :=
  match parseCameras args.camera with
  | .error e => { fs := fs0, events := [], result := .err e }
  | .ok cams =>
    if cams = [] then
      { fs := fs0, events := [], result := .err "at least one camera is required" }
    else
      let mp := metaPhase args cams fs0
      if cams = [] then
        { fs := mp.1, events := mp.2, result := .err "at least one camera is required" }
      else
        let op := openPhase env.openOk cams
        match op.2 with
        | .error e => { fs := mp.1, events := mp.2 ++ op.1, result := .err e }
        | .ok _ =>
          let r := runEpisodes args env cams.length args.episodes 0 mp.1
          match r.2 with
          | .diverged =>
            { fs := r.1, events := mp.2 ++ op.1, result := .diverged }
          | .ok =>
            { fs := r.1
              events := mp.2 ++ op.1 ++ cams.map (fun c => Event.releaseCam c.2)
              result := .ok }
          | .err e =>
            { fs := r.1
              events := mp.2 ++ op.1 ++ cams.map (fun c => Event.releaseCam c.2)
              result := .err e }

/-! ## Derived predicates and concrete fixtures -/

/-- Invariant tying the per-camera video writers to the row buffer:
either no writer has been created yet (and then no row has been
appended), or every writer holds exactly `rows.length` frames. -/
def writersInv (n : Nat) (s : EpState) : Prop :=
  (s.writers = List.replicate n none ∧ s.rows = []) ∨
  s.writers = List.replicate n (some s.rows.length)

/-- A tick on which every camera read succeeds, all three clock reads
returning `q`. -/
def tickAllOk (q : ℚ) : Tick :=
  { reads := fun _ => (true, 7), tStart := q, tStamp := q, tPace := q }

/-- A tick on which every camera read fails. -/
def tickAllFail : Tick :=
  { reads := fun _ => (false, 0), tStart := 0, tStamp := 0, tPace := 0 }

/-- The tool's default configuration (`parse_args` defaults) recording
one episode. -/
def argsDefault : Args :=
  { episodes := 1, duration := 10, minFrames := 50, fps := 30,
    camera := none, width := 640, height := 480, task := "demo" }

/-- Default configuration with `--min_frames 0`. -/
def argsMinZero : Args := { argsDefault with minFrames := 0 }

/-- Default configuration with `--duration -1 --min_frames 5`. -/
def argsNegDur : Args := { argsDefault with duration := -1, minFrames := 5 }

/-- Default configuration with `--min_frames 1`. -/
def argsMinOne : Args := { argsDefault with minFrames := 1 }

/-- Default configuration with `--duration 3 --fps 1` (so
`max_frames = 3 < min_frames = 50`). -/
def argsSmall : Args := { argsDefault with duration := 3, fps := 1 }

/-- Two pathological cameras `a=0`, `b=1`. -/
def argsTwoCams : Args := { argsDefault with camera := some ["a=0", "b=1"] }

/-- A malformed camera spec without `=`. -/
def argsBadSpec : Args := { argsDefault with camera := some ["front0"] }

/-- Environment whose every camera opens but every read fails. -/
def envAllFail : Env :=
  { openOk := fun _ => true, ticks := fun _ => [tickAllFail], startT := fun _ => 0 }

/-- Environment where only device index `0` opens. -/
def envOpenFailAt1 : Env :=
  { openOk := fun i => i == 0, ticks := fun _ => [], startT := fun _ => 0 }

/-- Environment where all opens succeed and each episode sees five
successful ticks at strictly increasing clock values. -/
def envOkTicks : Env :=
  { openOk := fun _ => true
    ticks := fun _ => [tickAllOk 1, tickAllOk 2, tickAllOk 3, tickAllOk 4, tickAllOk 5]
    startT := fun _ => 0 }

/-- An empty output directory. -/
def fsEmpty : FS :=
  { info := none, tasks := none, episodes := none, episodesStats := none,
    dataFiles := [] }

/-- An output directory left behind by an earlier run. -/
def fsPre : FS :=
  { info := some 25, tasks := some [(0, "old task")], episodes := some [(0, 12)],
    episodesStats := some [(0, 12)], dataFiles := [("episode_000000", [])] }

/-! ## Lemmas about a single tick -/

theorem readCamsAux_length (t : Tick) :
    ∀ k i l, readCamsAux t i k = some l → l.length = k := by
  intro k
  induction k with
  | zero => intro i l h; simp [readCamsAux] at h; simp [← h]
  | succ m ih =>
    intro i l h
    simp only [readCamsAux] at h
    split at h
    · rcases Option.map_eq_some'.mp h with ⟨l', hl', rfl⟩
      simp [ih (i + 1) l' hl']
    · exact absurd h (by simp)

theorem readCams_length (t : Tick) (n : Nat) (l : List Nat)
    (h : readCams t n = some l) : l.length = n :=
  readCamsAux_length t n 0 l h

theorem readCams_fail (t : Tick) (n : Nat) (hn : 0 < n)
    (h : (t.reads 0).1 = false) : readCams t n = none := by
  cases n with
  | zero => omega
  | succ m => simp [readCams, readCamsAux, h]

theorem tickStep_fail (fps minF : ℤ) (n : Nat) (st : ℚ) (t : Tick) (s : EpState)
    (h : readCams t n = none) : tickStep fps minF n st t s = .cont s none := by
  simp [tickStep, h]

theorem tickStep_succ_state (fps minF : ℤ) (n : Nat) (st : ℚ) (t : Tick) (s : EpState)
    (frames : List Nat) (h : readCams t n = some frames) :
    (tickStep fps minF n st t s).state = succStep st t frames s := by
  simp only [tickStep, h]
  split <;> rfl

theorem tickStep_cases (fps minF : ℤ) (n : Nat) (st : ℚ) (t : Tick) (s : EpState) :
    (readCams t n = none ∧ tickStep fps minF n st t s = .cont s none) ∨
    ∃ frames, readCams t n = some frames ∧
      (tickStep fps minF n st t s).state = succStep st t frames s := by
  cases h : readCams t n with
  | none => exact Or.inl ⟨rfl, tickStep_fail fps minF n st t s h⟩
  | some frames =>
    exact Or.inr ⟨frames, rfl, tickStep_succ_state fps minF n st t s frames h⟩

theorem succStep_frameCount (st : ℚ) (t : Tick) (frames : List Nat) (s : EpState) :
    (succStep st t frames s).frameCount = s.frameCount + 1 := rfl

theorem succStep_rows (st : ℚ) (t : Tick) (frames : List Nat) (s : EpState) :
    (succStep st t frames s).rows
      = s.rows ++ [{ timestamp := t.tStamp - st, frame := s.frameCount }] := rfl

/-! ## The loop never terminates when every tick fails -/

theorem epLoop_all_fail (fps minF maxF : ℤ) (st : ℚ) (n : Nat) :
    ∀ ticks : List Tick, (∀ t ∈ ticks, readCams t n = none) →
    ∀ s : EpState, (s.frameCount : ℤ) < maxF →
      epLoop fps minF maxF st n ticks s = .outOfTicks s := by
  intro ticks
  induction ticks with
  | nil => intro _ s hs; simp [epLoop, hs]
  | cons t rest ih =>
    intro hfail s hs
    have ht : readCams t n = none := hfail t (List.mem_cons_self t rest)
    simp only [epLoop, if_pos hs, tickStep_fail fps minF n st t s ht]
    exact ih (fun t' ht' => hfail t' (List.mem_cons_of_mem t ht')) s hs

/-! ## Final frame count on an all-success trace -/

theorem epLoop_allOk_count (fps minF maxF : ℤ) (st : ℚ) (n : Nat) :
    ∀ ticks : List Tick, (∀ t ∈ ticks, (readCams t n).isSome = true) →
    ∀ s s' : EpState, epLoop fps minF maxF st n ticks s = .finished s' →
      (s'.frameCount : ℤ) =
        if maxF ≤ (s.frameCount : ℤ) then (s.frameCount : ℤ)
        else min (max minF ((s.frameCount : ℤ) + 1)) maxF := by
  intro ticks
  induction ticks with
  | nil =>
    intro _ s s' h
    simp only [epLoop] at h
    split at h
    · exact absurd h (by simp)
    · cases h; rename_i hge; rw [if_pos (by omega)]
  | cons t rest ih =>
    intro hok s s' h
    simp only [epLoop] at h
    split at h
    · rename_i hlt
      rcases Option.isSome_iff_exists.mp (hok t (List.mem_cons_self t rest)) with ⟨frames, hf⟩
      cases hstep : tickStep fps minF n st t s with
      | cont s1 sl =>
        rw [hstep] at h
        simp only [tickStep, hf] at hstep
        split at hstep
        · exact absurd hstep (by simp)
        · rename_i hnb
          injection hstep with hs1 hsl
          have := ih (fun t' ht' => hok t' (List.mem_cons_of_mem t ht')) s1 s' h
          rw [← hs1, succStep_frameCount] at this
          rw [succStep_frameCount] at hnb
          rw [if_neg (by omega)]
          split at this <;> (push_cast at this hnb ⊢; omega)
      | brk s1 =>
        rw [hstep] at h
        cases h
        simp only [tickStep, hf] at hstep
        split at hstep
        · rename_i hb
          injection hstep with hs1
          rw [← hs1, succStep_frameCount]
          rw [succStep_frameCount] at hb
          rw [if_neg (by omega)]
          push_cast at hb ⊢; omega
        · exact absurd hstep (by simp)
    · rename_i hge
      cases h
      rw [if_pos (by omega)]

theorem epLoop_allOk_count_init (fps minF maxF : ℤ) (st : ℚ) (n : Nat)
    (ticks : List Tick) (hok : ∀ t ∈ ticks, (readCams t n).isSome = true)
    (s' : EpState) (h : epLoop fps minF maxF st n ticks (initEp n) = .finished s') :
    (s'.frameCount : ℤ) = min (max minF 1) (max maxF 0) := by
  have := epLoop_allOk_count fps minF maxF st n ticks hok (initEp n) s' h
  simp only [initEp] at this
  split at this <;> (push_cast at this ⊢; omega)

/-! ## Reachable-state invariants -/

theorem tickStep_state_frameCount (fps minF : ℤ) (n : Nat) (st : ℚ) (t : Tick) (s : EpState) :
    (tickStep fps minF n st t s).state.frameCount = s.frameCount ∨
    (tickStep fps minF n st t s).state.frameCount = s.frameCount + 1 := by
  rcases tickStep_cases fps minF n st t s with ⟨_, heq⟩ | ⟨frames, _, hst⟩
  · left; rw [heq]; rfl
  · right; rw [hst]; rfl

theorem epStates_frameCount_le (fps minF maxF : ℤ) (st : ℚ) (n : Nat) :
    ∀ (ticks : List Tick) (s : EpState), (s.frameCount : ℤ) ≤ maxF →
      ∀ s' ∈ epStates fps minF maxF st n ticks s, (s'.frameCount : ℤ) ≤ maxF := by
  intro ticks
  induction ticks with
  | nil =>
    intro s hs s' hs'
    simp only [epStates] at hs'
    rcases List.mem_singleton.mp hs' with rfl; exact hs
  | cons t rest ih =>
    intro s hs s' hs'
    simp only [epStates] at hs'
    split at hs'
    · rename_i hlt
      cases hstep : tickStep fps minF n st t s with
      | cont s1 sl =>
        rw [hstep] at hs'
        have hc : s1.frameCount = s.frameCount ∨ s1.frameCount = s.frameCount + 1 := by
          have := tickStep_state_frameCount fps minF n st t s
          rw [hstep] at this; exact this
        rcases List.mem_cons.mp hs' with rfl | hmem
        · exact hs
        · exact ih s1 (by omega) s' hmem
      | brk s1 =>
        rw [hstep] at hs'
        have hc : s1.frameCount = s.frameCount ∨ s1.frameCount = s.frameCount + 1 := by
          have := tickStep_state_frameCount fps minF n st t s
          rw [hstep] at this; exact this
        rcases List.mem_cons.mp hs' with rfl | hmem
        · exact hs
        · rcases List.mem_singleton.mp hmem with rfl; omega
    · rcases List.mem_singleton.mp hs' with rfl; exact hs

theorem resultState_mem_epStates (fps minF maxF : ℤ) (st : ℚ) (n : Nat) :
    ∀ (ticks : List Tick) (s : EpState),
      resultState (epLoop fps minF maxF st n ticks s) ∈ epStates fps minF maxF st n ticks s := by
  intro ticks
  induction ticks with
  | nil =>
    intro s
    simp only [epLoop, epStates]
    split <;> simp [resultState]
  | cons t rest ih =>
    intro s
    simp only [epLoop, epStates]
    split
    · cases tickStep fps minF n st t s with
      | cont s1 sl => exact List.mem_cons_of_mem s (ih s1)
      | brk s1 => simp [resultState]
    · simp [resultState]

theorem zipWith_replicate_succ (fr : List Nat) (L : Nat) :
    List.zipWith (fun w _ => Option.map (· + 1) w)
        (List.replicate fr.length (some L : Option Nat)) fr
      = List.replicate fr.length (some (L + 1)) := by
  induction fr with
  | nil => rfl
  | cons a fr ih =>
    rw [List.length_cons, List.replicate_succ, List.replicate_succ,
      List.zipWith_cons_cons, ih]
    rfl

theorem map_const_replicate (fr : List Nat) (c : Option Nat) :
    fr.map (fun _ => c) = List.replicate fr.length c := by
  induction fr with
  | nil => rfl
  | cons a fr ih => simp [List.replicate_succ, ih]

theorem any_isNone_replicate_some (n L : Nat) :
    (List.replicate n (some L : Option Nat)).any Option.isNone = false := by
  induction n with
  | zero => rfl
  | succ m ih => simp [List.replicate_succ, ih]

theorem succStep_writersInv (st : ℚ) (t : Tick) (frames : List Nat) (s : EpState)
    (n : Nat) (hlen : frames.length = n) (hinv : writersInv n s) :
    writersInv n (succStep st t frames s) := by
  rcases hinv with ⟨hw, hr⟩ | hw
  · right
    cases n with
    | zero =>
      have hf : frames = [] := List.length_eq_zero.mp hlen
      simp [succStep, hw, hr, hf]
    | succ m =>
      have hany : s.writers.any Option.isNone = true := by
        rw [hw, List.replicate_succ]; simp
      simp only [succStep, hany, if_true]
      rw [map_const_replicate, zipWith_replicate_succ, hlen, hr]
      simp
  · right
    have hany : s.writers.any Option.isNone = false := by
      rw [hw]; exact any_isNone_replicate_some n s.rows.length
    simp only [succStep, hany]
    rw [if_neg (by simp), hw, ← hlen, zipWith_replicate_succ]
    simp

theorem epStates_writersInv (fps minF maxF : ℤ) (st : ℚ) (n : Nat) :
    ∀ (ticks : List Tick) (s : EpState), writersInv n s →
      ∀ s' ∈ epStates fps minF maxF st n ticks s, writersInv n s' := by
  intro ticks
  induction ticks with
  | nil => intro s hs s' hs'; rcases List.mem_singleton.mp hs' with rfl; exact hs
  | cons t rest ih =>
    intro s hs s' hs'
    simp only [epStates] at hs'
    split at hs'
    · rcases tickStep_cases fps minF n st t s with ⟨_, heq⟩ | ⟨frames, hf, hstate⟩
      · rw [heq] at hs'
        rcases List.mem_cons.mp hs' with rfl | hmem
        · exact hs
        · exact ih s hs s' hmem
      · cases hstep : tickStep fps minF n st t s with
        | cont s1 sl =>
          rw [hstep] at hs' hstate
          simp only [StepOut.state] at hstate
          subst hstate
          rcases List.mem_cons.mp hs' with rfl | hmem
          · exact hs
          · exact ih _ (succStep_writersInv st t frames s n
              (readCams_length t n frames hf) hs) s' hmem
        | brk s1 =>
          rw [hstep] at hs' hstate
          simp only [StepOut.state] at hstate
          subst hstate
          rcases List.mem_cons.mp hs' with rfl | hmem
          · exact hs
          · rcases List.mem_singleton.mp hmem with rfl
            exact succStep_writersInv st t frames s n
              (readCams_length t n frames hf) hs
    · rcases List.mem_singleton.mp hs' with rfl; exact hs

theorem writersInv_aligned (n : Nat) (s : EpState) (h : writersInv n s) :
    ∀ w ∈ s.writers, w.getD 0 = s.rows.length := by
  rcases h with ⟨hw, hr⟩ | hw
  · intro w hw'
    rw [hw] at hw'
    rw [List.eq_of_mem_replicate hw']
    simp [hr]
  · intro w hw'
    rw [hw] at hw'
    rw [List.eq_of_mem_replicate hw']
    rfl

/-! ## Row-buffer invariants: frame indices and timestamps -/

theorem epLoop_rows_frame (fps minF maxF : ℤ) (st : ℚ) (n : Nat) :
    ∀ (ticks : List Tick) (s : EpState),
      s.rows.map Row.frame = List.range s.frameCount →
      (resultState (epLoop fps minF maxF st n ticks s)).rows.map Row.frame
        = List.range (resultState (epLoop fps minF maxF st n ticks s)).frameCount := by
  intro ticks
  induction ticks with
  | nil =>
    intro s hs
    simp only [epLoop]
    split <;> simpa [resultState]
  | cons t rest ih =>
    intro s hs
    simp only [epLoop]
    split
    · rcases tickStep_cases fps minF n st t s with ⟨_, heq⟩ | ⟨frames, hf, hstate⟩
      · rw [heq]; exact ih s hs
      · cases hstep : tickStep fps minF n st t s with
        | cont s1 sl =>
          rw [hstep] at hstate
          simp only [StepOut.state] at hstate
          subst hstate
          refine ih _ ?_
          rw [succStep_rows, succStep_frameCount, List.map_append, hs, List.range_succ]
          rfl
        | brk s1 =>
          rw [hstep] at hstate
          simp only [StepOut.state] at hstate
          subst hstate
          simp only [resultState]
          rw [succStep_rows, succStep_frameCount, List.map_append, hs, List.range_succ]
          rfl
    · simpa [resultState]

theorem epLoop_rows_timestamps (fps minF maxF : ℤ) (st : ℚ) (n : Nat) :
    ∀ (ticks : List Tick) (s : EpState),
      List.Pairwise (fun a b : Tick => a.tStamp < b.tStamp) ticks →
      List.Pairwise (fun a b : ℚ => a < b) (s.rows.map Row.timestamp) →
      (∀ r ∈ s.rows, ∀ t ∈ ticks, r.timestamp < t.tStamp - st) →
      List.Pairwise (fun a b : ℚ => a < b)
        ((resultState (epLoop fps minF maxF st n ticks s)).rows.map Row.timestamp) := by
  intro ticks
  induction ticks with
  | nil =>
    intro s _ hpw _
    simp only [epLoop]
    split <;> simpa [resultState]
  | cons t rest ih =>
    intro s hmono hpw hcross
    have hmono' := (List.pairwise_cons.mp hmono).2
    have hhead := (List.pairwise_cons.mp hmono).1
    simp only [epLoop]
    split
    · rcases tickStep_cases fps minF n st t s with ⟨_, heq⟩ | ⟨frames, hf, hstate⟩
      · rw [heq]
        exact ih s hmono' hpw
          (fun r hr t' ht' => hcross r hr t' (List.mem_cons_of_mem t ht'))
      · -- properties of the post-tick state
        have hpw1 : List.Pairwise (fun a b : ℚ => a < b)
            ((succStep st t frames s).rows.map Row.timestamp) := by
          rw [succStep_rows, List.map_append]
          refine List.pairwise_append.mpr ⟨hpw, List.pairwise_singleton _ _, ?_⟩
          intro a ha b hb
          rcases List.mem_map.mp ha with ⟨r, hr, rfl⟩
          rcases List.mem_singleton.mp hb with rfl
          exact hcross r hr t (List.mem_cons_self t rest)
        have hcross1 : ∀ r ∈ (succStep st t frames s).rows,
            ∀ t' ∈ rest, r.timestamp < t'.tStamp - st := by
          intro r hr t' ht'
          rw [succStep_rows] at hr
          rcases List.mem_append.mp hr with hr | hr
          · exact lt_trans (hcross r hr t (List.mem_cons_self t rest))
              (sub_lt_sub_right (hhead t' ht') st)
          · rcases List.mem_singleton.mp hr with rfl
            exact sub_lt_sub_right (hhead t' ht') st
        cases hstep : tickStep fps minF n st t s with
        | cont s1 sl =>
          rw [hstep] at hstate
          simp only [StepOut.state] at hstate
          subst hstate
          exact ih _ hmono' hpw1 hcross1
        | brk s1 =>
          rw [hstep] at hstate
          simp only [StepOut.state] at hstate
          subst hstate
          simpa [resultState] using hpw1
    · simpa [resultState]

/-! ## Evaluation of `maxFrames` on the concrete configurations -/

theorem maxFrames_argsDefault : maxFrames argsDefault = 300 := by
  norm_num [maxFrames, argsDefault]

theorem maxFrames_argsMinZero : maxFrames argsMinZero = 300 := by
  norm_num [maxFrames, argsMinZero, argsDefault]

theorem maxFrames_argsMinOne : maxFrames argsMinOne = 300 := by
  norm_num [maxFrames, argsMinOne, argsDefault]

theorem maxFrames_argsNegDur : maxFrames argsNegDur = -30 := by
  rw [maxFrames]
  norm_num [argsNegDur, argsDefault]
  rw [show (-30 : ℚ) = ((-30 : ℤ) : ℚ) by norm_num, Int.ceil_intCast]

theorem maxFrames_argsSmall : maxFrames argsSmall = 3 := by
  norm_num [maxFrames, argsSmall, argsDefault]

/-! ## Claims about the episode loop -/

/-- C1: the claim says an episode whose every camera read fails still
finishes with `frame_count == 0` and writes an empty table plus
episode/stat records.  The code disagrees: with `max_frames > 0` the
`while` loop `continue`s forever without incrementing `frame_count`, so
no finite tick trace ever completes the episode (`outOfTicks` for every
trace: the run hangs), and `runEpisode` diverges instead of producing
records; moreover had the loop been exited with no successful tick, the
writer-release phase would raise, because every `vw_writers` entry is
still `None`. -/
theorem c1_all_reads_fail_run_hangs (args : Args) (env : Env) (ep n : Nat)
    (hn : 0 < n) (hmax : 0 < maxFrames args)
    (hfail : ∀ t ∈ env.ticks ep, ∀ i, (t.reads i).1 = false) :
    (∀ fs : FS, runEpisode args env n ep fs = Sum.inr RunEnd.diverged)
    ∧ (∀ ticks : List Tick, (∀ t ∈ ticks, ∀ i, (t.reads i).1 = false) →
        epLoop args.fps args.minFrames (maxFrames args) (env.startT ep) n ticks (initEp n)
          = .outOfTicks (initEp n))
    ∧ (∃ e, releaseWriters (initEp n).writers = .error e) := by
  have hloop : ∀ ticks : List Tick, (∀ t ∈ ticks, ∀ i, (t.reads i).1 = false) →
      ∀ st : ℚ, epLoop args.fps args.minFrames (maxFrames args) st n ticks (initEp n)
        = .outOfTicks (initEp n) := by
    intro ticks hf st
    refine epLoop_all_fail args.fps args.minFrames (maxFrames args) st n ticks
      (fun t ht => readCams_fail t n hn (hf t ht 0)) (initEp n) ?_
    simpa [initEp] using hmax
  refine ⟨?_, fun ticks hf => hloop ticks hf (env.startT ep), ?_⟩
  · intro fs
    rw [runEpisode, hloop (env.ticks ep) hfail (env.startT ep)]
  · cases n with
    | zero => omega
    | succ m =>
      exact ⟨"AttributeError: NoneType object has no attribute release",
        by simp [initEp, List.replicate_succ, releaseWriters]⟩

theorem c1_witness :
    runEpisode argsDefault envAllFail 1 0 fsEmpty = Sum.inr RunEnd.diverged :=
  (c1_all_reads_fail_run_hangs argsDefault envAllFail 0 1 (by decide)
    (by rw [maxFrames_argsDefault]; decide)
    (by
      intro t ht i
      simp only [envAllFail] at ht
      rcases List.mem_singleton.mp ht with rfl
      rfl)).1 fsEmpty

/-- C3 (counterexample): with `--min_frames 0` (and any positive
duration budget) an all-success episode records one frame, not
`min(min_frames, ceil(duration*fps)) = 0`: the min-frames check runs
only after a frame has been appended.  And with a negative duration the
loop body never runs, so `frame_count` is `0`, not the negative
`min(min_frames, ceil(duration*fps))`. -/
theorem c3_counterexample :
    epLoop argsMinZero.fps argsMinZero.minFrames (maxFrames argsMinZero) 0 1
        [tickAllOk 1] (initEp 1)
      = .finished { frameCount := 1, rows := [{ timestamp := 1, frame := 0 }],
                    writers := [some 1] }
    ∧ min argsMinZero.minFrames (maxFrames argsMinZero) = 0
    ∧ (1 : ℤ) ≠ 0
    ∧ epLoop argsNegDur.fps argsNegDur.minFrames (maxFrames argsNegDur) 0 1
        [] (initEp 1)
      = .finished (initEp 1)
    ∧ min argsNegDur.minFrames (maxFrames argsNegDur) = -30
    ∧ (((initEp 1).frameCount : ℤ)) ≠ -30 := by
  refine ⟨?_, ?_, by decide, ?_, ?_, by decide⟩
  · rw [maxFrames_argsMinZero]
    simp [epLoop, tickStep, readCams, readCamsAux, succStep, tickAllOk, initEp,
      argsMinZero, argsDefault]
  · rw [maxFrames_argsMinZero]; decide
  · rw [maxFrames_argsNegDur]; decide
  · rw [maxFrames_argsNegDur]; decide

/-- C3 (amended): on an all-success trace, an episode that finishes
does so with `frame_count = min(max(min_frames, 1), max(ceil(duration*fps), 0))`;
this equals the claimed `min(min_frames, ceil(duration*fps))` whenever
`min_frames ≥ 1` and `duration ≥ 0`, but one frame is recorded when
`min_frames ≤ 0`, and zero frames when the duration budget is negative. -/
theorem c3_all_success_frame_count (args : Args) (st : ℚ) (n : Nat)
    (ticks : List Tick) (s' : EpState)
    (hok : ∀ t ∈ ticks, (readCams t n).isSome = true)
    (hfin : epLoop args.fps args.minFrames (maxFrames args) st n ticks (initEp n)
      = .finished s') :
    (s'.frameCount : ℤ) = min (max args.minFrames 1) (max (maxFrames args) 0) :=
  epLoop_allOk_count_init args.fps args.minFrames (maxFrames args) st n ticks hok s' hfin

theorem c3_witness :
    (({ frameCount := 1, rows := [{ timestamp := 1, frame := 0 }],
        writers := [some 1] } : EpState).frameCount : ℤ)
      = min (max argsMinOne.minFrames 1) (max (maxFrames argsMinOne) 0) :=
  c3_all_success_frame_count argsMinOne 0 1 [tickAllOk 1] _ (by decide)
    (by
      rw [maxFrames_argsMinOne]
      simp [epLoop, tickStep, readCams, readCamsAux, succStep, tickAllOk, initEp,
        argsMinOne, argsDefault])

/-- C4: a tick on which some camera read fails leaves the row buffer,
the frame counter and every video writer untouched; consequently every
state the loop can reach keeps, for every camera, the number of frames
written to that camera's video equal to the number of buffered rows. -/
theorem c4_failed_tick_discarded_and_aligned (fps minF maxF : ℤ) (st : ℚ)
    (n : Nat) (t : Tick) (s : EpState) (ticks : List Tick) :
    (readCams t n = none →
      (tickStep fps minF n st t s).state.rows = s.rows ∧
      (tickStep fps minF n st t s).state.frameCount = s.frameCount ∧
      (tickStep fps minF n st t s).state.writers = s.writers)
    ∧ (∀ s' ∈ epStates fps minF maxF st n ticks (initEp n),
        ∀ w ∈ s'.writers, w.getD 0 = s'.rows.length) := by
  constructor
  · intro hf
    rw [tickStep_fail fps minF n st t s hf]
    exact ⟨rfl, rfl, rfl⟩
  · intro s' hs'
    exact writersInv_aligned n s'
      (epStates_writersInv fps minF maxF st n ticks (initEp n)
        (Or.inl ⟨rfl, rfl⟩) s' hs')

theorem c4_witness :
    (tickStep 30 50 1 0 tickAllFail (initEp 1)).state.rows = (initEp 1).rows
    ∧ ∀ w ∈ (initEp 1).writers, w.getD 0 = (initEp 1).rows.length :=
  ⟨((c4_failed_tick_discarded_and_aligned 30 50 300 0 1 tickAllFail (initEp 1)
      [tickAllFail]).1 (by decide)).1,
   (c4_failed_tick_discarded_and_aligned 30 50 300 0 1 tickAllFail (initEp 1)
      [tickAllFail]).2 (initEp 1) (by decide)⟩

/-- C5: with a nonnegative duration and fps, every state the episode
loop reaches satisfies `0 ≤ frame_count ≤ ceil(duration*fps)`, and so
does the final state; when `min_frames` exceeds `ceil(duration*fps)`,
an all-success episode that finishes stops at exactly
`ceil(duration*fps)` frames. -/
theorem c5_frame_count_bounds (args : Args) (st : ℚ) (n : Nat) (ticks : List Tick)
    (hd : 0 ≤ args.duration) (hf : 0 ≤ args.fps) :
    (∀ s' ∈ epStates args.fps args.minFrames (maxFrames args) st n ticks (initEp n),
      0 ≤ (s'.frameCount : ℤ) ∧ (s'.frameCount : ℤ) ≤ maxFrames args)
    ∧ (∀ s', epLoop args.fps args.minFrames (maxFrames args) st n ticks (initEp n)
        = .finished s' → (s'.frameCount : ℤ) ≤ maxFrames args)
    ∧ (maxFrames args < args.minFrames →
       (∀ t ∈ ticks, (readCams t n).isSome = true) →
       ∀ s', epLoop args.fps args.minFrames (maxFrames args) st n ticks (initEp n)
         = .finished s' → (s'.frameCount : ℤ) = maxFrames args) := by
  have hmax : 0 ≤ maxFrames args := by
    have : (0 : ℚ) ≤ args.duration * (args.fps : ℚ) :=
      mul_nonneg hd (by exact_mod_cast hf)
    exact Int.ceil_nonneg this
  have hbound : ∀ s' ∈ epStates args.fps args.minFrames (maxFrames args) st n ticks
      (initEp n), 0 ≤ (s'.frameCount : ℤ) ∧ (s'.frameCount : ℤ) ≤ maxFrames args := by
    intro s' hs'
    refine ⟨by positivity, ?_⟩
    exact epStates_frameCount_le args.fps args.minFrames (maxFrames args) st n ticks
      (initEp n) (by simpa [initEp] using hmax) s' hs'
  refine ⟨hbound, ?_, ?_⟩
  · intro s' hfin
    have hmem := resultState_mem_epStates args.fps args.minFrames (maxFrames args)
      st n ticks (initEp n)
    rw [hfin] at hmem
    exact (hbound _ hmem).2
  · intro hlt hok s' hfin
    have := epLoop_allOk_count_init args.fps args.minFrames (maxFrames args)
      st n ticks hok s' hfin
    omega

theorem c5_witness :
    ((({ frameCount := 3,
         rows := [{ timestamp := 1, frame := 0 }, { timestamp := 2, frame := 1 },
                  { timestamp := 3, frame := 2 }],
         writers := [some 3] } : EpState)).frameCount : ℤ) = maxFrames argsSmall :=
  (c5_frame_count_bounds argsSmall 0 1 [tickAllOk 1, tickAllOk 2, tickAllOk 3]
      (by decide) (by decide)).2.2
    (by rw [maxFrames_argsSmall]; decide) (by decide) _
    (by
      rw [maxFrames_argsSmall]
      simp [epLoop, tickStep, readCams, readCamsAux, succStep, tickAllOk, initEp,
        argsSmall, argsDefault])

/-- C7: provided the per-tick clock readings increase strictly across
the trace (successive `time.time()` calls), the i-th row appended in an
episode carries `frame_index = i` (the frame column lists `0, 1, ...`)
and the row timestamps are strictly increasing. -/
theorem c7_row_index_and_timestamps (fps minF maxF : ℤ) (st : ℚ) (n : Nat)
    (ticks : List Tick)
    (hmono : List.Pairwise (fun a b : Tick => a.tStamp < b.tStamp) ticks) :
    ((resultState (epLoop fps minF maxF st n ticks (initEp n))).rows.map Row.frame
      = List.range
          (resultState (epLoop fps minF maxF st n ticks (initEp n))).rows.length)
    ∧ List.Pairwise (fun a b : ℚ => a < b)
        ((resultState (epLoop fps minF maxF st n ticks (initEp n))).rows.map
          Row.timestamp) := by
  have hframe := epLoop_rows_frame fps minF maxF st n ticks (initEp n)
    (by simp [initEp])
  have hlen : (resultState (epLoop fps minF maxF st n ticks (initEp n))).rows.length
      = (resultState (epLoop fps minF maxF st n ticks (initEp n))).frameCount := by
    have := congrArg List.length hframe
    simpa using this
  refine ⟨by rw [hlen]; exact hframe, ?_⟩
  exact epLoop_rows_timestamps fps minF maxF st n ticks (initEp n) hmono
    (by simp [initEp]) (by simp [initEp])

theorem c7_witness :
    ((resultState (epLoop 30 50 300 0 1 [tickAllOk 1, tickAllOk 2]
        (initEp 1))).rows.map Row.frame
      = List.range
          (resultState (epLoop 30 50 300 0 1 [tickAllOk 1, tickAllOk 2]
            (initEp 1))).rows.length)
    ∧ List.Pairwise (fun a b : ℚ => a < b)
        ((resultState (epLoop 30 50 300 0 1 [tickAllOk 1, tickAllOk 2]
          (initEp 1))).rows.map Row.timestamp) :=
  c7_row_index_and_timestamps 30 50 300 0 1 [tickAllOk 1, tickAllOk 2] (by decide)

/-- C9: a tick on which some camera read fails performs no pacing sleep
at all — the loop `continue`s straight into the next read attempt — and
leaves the state untouched, so consecutive failed ticks are retried
back to back. -/
theorem c9_failed_tick_skips_sleep (fps minF : ℤ) (n : Nat) (st : ℚ)
    (t : Tick) (s : EpState) (hfail : readCams t n = none) :
    (tickStep fps minF n st t s).sleep = none
    ∧ tickStep fps minF n st t s = .cont s none := by
  rw [tickStep_fail fps minF n st t s hfail]
  exact ⟨rfl, rfl⟩

theorem c9_witness :
    (tickStep 30 50 1 0 tickAllFail (initEp 1)).sleep = none :=
  (c9_failed_tick_skips_sleep 30 50 1 0 tickAllFail (initEp 1) (by decide)).1

/-! ## Run-level lemmas: metadata phase, open phase, episode loop -/

theorem metaPhase_info (args : Args) (cams : List (String × ℤ)) (fs : FS) :
    (metaPhase args cams fs).1.info = some args.fps := by
  cases h : fs.tasks <;> simp [metaPhase, h]

theorem metaPhase_episodes (args : Args) (cams : List (String × ℤ)) (fs : FS) :
    (metaPhase args cams fs).1.episodes = fs.episodes := by
  cases h : fs.tasks <;> simp [metaPhase, h]

theorem metaPhase_episodesStats (args : Args) (cams : List (String × ℤ)) (fs : FS) :
    (metaPhase args cams fs).1.episodesStats = fs.episodesStats := by
  cases h : fs.tasks <;> simp [metaPhase, h]

theorem metaPhase_tasks_none (args : Args) (cams : List (String × ℤ)) (fs : FS)
    (h : fs.tasks = none) :
    (metaPhase args cams fs).1.tasks = some [(0, args.task)] := by
  simp [metaPhase, h]

theorem metaPhase_tasks_some (args : Args) (cams : List (String × ℤ)) (fs : FS)
    (l : List (Nat × String)) (h : fs.tasks = some l) :
    (metaPhase args cams fs).1.tasks = some l := by
  simp [metaPhase, h]

theorem metaPhase_events_meta (args : Args) (cams : List (String × ℤ)) (fs : FS) :
    ∀ ev ∈ (metaPhase args cams fs).2, ev.isMeta := by
  intro ev hev
  cases h : fs.tasks with
  | none =>
    simp only [metaPhase, h] at hev
    rcases List.mem_append.mp hev with h1 | h1
    · rcases List.mem_append.mp h1 with h2 | h2
      · rcases List.mem_cons.mp h2 with rfl | h3
        · trivial
        · rcases List.mem_singleton.mp h3 with rfl; trivial
      · rcases List.mem_map.mp h2 with ⟨c, _, rfl⟩; trivial
    · rcases List.mem_cons.mp h1 with rfl | h2
      · trivial
      · rcases List.mem_singleton.mp h2 with rfl; trivial
  | some l =>
    simp only [metaPhase, h] at hev
    rcases List.mem_append.mp hev with h1 | h1
    · rcases List.mem_append.mp h1 with h2 | h2
      · rcases List.mem_cons.mp h2 with rfl | h3
        · trivial
        · rcases List.mem_singleton.mp h3 with rfl; trivial
      · rcases List.mem_map.mp h2 with ⟨c, _, rfl⟩; trivial
    · rcases List.mem_singleton.mp h1 with rfl; trivial

theorem metaPhase_events_writeInfo (args : Args) (cams : List (String × ℤ)) (fs : FS) :
    Event.writeInfo ∈ (metaPhase args cams fs).2 := by
  cases h : fs.tasks <;> simp [metaPhase, h]

theorem openPhase_events_open (openOk : ℤ → Bool) :
    ∀ cams : List (String × ℤ), ∀ ev ∈ (openPhase openOk cams).1, ev.isOpen := by
  intro cams
  induction cams with
  | nil => intro ev hev; simp [openPhase] at hev
  | cons c rest ih =>
    intro ev hev
    by_cases hc : openOk c.2
    · simp only [openPhase, hc, if_true] at hev
      rcases List.mem_cons.mp hev with rfl | hmem
      · trivial
      · exact ih ev hmem
    · simp only [openPhase, hc, if_false, Bool.false_eq_true] at hev
      rcases List.mem_singleton.mp hev with rfl
      trivial

theorem openPhase_all_ok (openOk : ℤ → Bool) :
    ∀ cams : List (String × ℤ), (∀ c ∈ cams, openOk c.2 = true) →
      (openPhase openOk cams).2 = .ok () := by
  intro cams
  induction cams with
  | nil => intro _; rfl
  | cons c rest ih =>
    intro h
    have hc : openOk c.2 = true := h c (List.mem_cons_self c rest)
    simp only [openPhase, hc, if_true]
    exact ih (fun c' hc' => h c' (List.mem_cons_of_mem c hc'))

theorem openPhase_fail (openOk : ℤ → Bool) :
    ∀ cams : List (String × ℤ), (∃ c ∈ cams, openOk c.2 = false) →
      (openPhase openOk cams).2 = .error "cannot open camera" := by
  intro cams
  induction cams with
  | nil => intro h; simp at h
  | cons c rest ih =>
    intro ⟨c0, hc0, hfail⟩
    by_cases hc : openOk c.2
    · rcases List.mem_cons.mp hc0 with rfl | hmem
      · rw [hfail] at hc; exact absurd hc (by simp)
      · simp only [openPhase, hc, if_true]
        exact ih ⟨c0, hmem, hfail⟩
    · simp [openPhase, hc]

theorem runEpisode_inl (args : Args) (env : Env) (n ep : Nat) (fs fs' : FS)
    (h : runEpisode args env n ep fs = .inl fs') :
    fs'.tasks = fs.tasks ∧ fs'.info = fs.info ∧
    ∃ c : Nat × Nat,
      fs'.episodes = some (fs.episodes.getD [] ++ [c]) ∧
      fs'.episodesStats = some (fs.episodesStats.getD [] ++ [c]) := by
  rw [runEpisode] at h
  split at h
  · exact absurd h (by simp)
  · split at h
    · exact absurd h (by simp)
    · injection h with h
      subst h
      exact ⟨rfl, rfl, _, rfl, rfl⟩

theorem runEpisodes_fs (args : Args) (env : Env) (n : Nat) :
    ∀ (k ep : Nat) (fs : FS),
      (runEpisodes args env n k ep fs).1.tasks = fs.tasks
      ∧ (runEpisodes args env n k ep fs).1.info = fs.info
      ∧ (∃ suf, (runEpisodes args env n k ep fs).1.episodes.getD []
          = fs.episodes.getD [] ++ suf)
      ∧ (∃ suf, (runEpisodes args env n k ep fs).1.episodesStats.getD []
          = fs.episodesStats.getD [] ++ suf) := by
  intro k
  induction k with
  | zero =>
    intro ep fs
    exact ⟨rfl, rfl, ⟨[], by simp [runEpisodes]⟩, ⟨[], by simp [runEpisodes]⟩⟩
  | succ m ih =>
    intro ep fs
    simp only [runEpisodes]
    cases h : runEpisode args env n ep fs with
    | inl fs' =>
      rcases runEpisode_inl args env n ep fs fs' h with ⟨ht, hi, c, he, hs⟩
      rcases ih (ep + 1) fs' with ⟨ht', hi', ⟨sufE, hE⟩, ⟨sufS, hS⟩⟩
      refine ⟨by rw [ht', ht], by rw [hi', hi], ⟨[c] ++ sufE, ?_⟩, ⟨[c] ++ sufS, ?_⟩⟩
      · rw [hE, he]; simp
      · rw [hS, hs]; simp
    | inr e => exact ⟨rfl, rfl, ⟨[], by simp⟩, ⟨[], by simp⟩⟩

theorem isMeta_not_isRelease (ev : Event) (h : ev.isMeta) : ¬ ev.isRelease := by
  cases ev <;> simp [Event.isMeta, Event.isRelease] at h ⊢

theorem isOpen_not_isRelease (ev : Event) (h : ev.isOpen) : ¬ ev.isRelease := by
  cases ev <;> simp [Event.isOpen, Event.isRelease] at h ⊢

theorem parseCamerasGo_malformed :
    ∀ (l : List String) (acc : List (String × ℤ)),
      (∃ spec ∈ l, '=' ∉ spec.toList) → ∃ e, parseCamerasGo l acc = .error e := by
  intro l
  induction l with
  | nil => intro acc h; simp at h
  | cons spec rest ih =>
    intro acc ⟨sp, hsp, hbad⟩
    by_cases hc : '=' ∈ spec.toList
    · rcases List.mem_cons.mp hsp with rfl | hmem
      · exact absurd hc hbad
      · simp only [parseCamerasGo]
        rw [if_pos hc]
        cases strToInt (specIdxStr spec) with
        | some i => exact ih (dictInsert acc (specName spec) i) ⟨sp, hmem, hbad⟩
        | none => exact ⟨_, rfl⟩
    · refine ⟨"--camera argument must have the form name=index", ?_⟩
      simp only [parseCamerasGo]
      rw [if_neg hc]

theorem recordDataset_parse_error (args : Args) (env : Env) (fs0 : FS) (e : String)
    (h : parseCameras args.camera = .error e) :
    recordDataset args env fs0 = { fs := fs0, events := [], result := .err e } := by
  simp [recordDataset, h]

theorem recordDataset_no_cams (args : Args) (env : Env) (fs0 : FS)
    (h : parseCameras args.camera = .ok []) :
    recordDataset args env fs0
      = { fs := fs0, events := [], result := .err "at least one camera is required" } := by
  simp [recordDataset, h]

theorem recordDataset_open_fail_spec (args : Args) (env : Env) (fs0 : FS)
    (cams : List (String × ℤ)) (e : String)
    (hp : parseCameras args.camera = .ok cams) (hne : cams ≠ [])
    (hop : (openPhase env.openOk cams).2 = .error e) :
    recordDataset args env fs0
      = { fs := (metaPhase args cams fs0).1
          events := (metaPhase args cams fs0).2 ++ (openPhase env.openOk cams).1
          result := .err e } := by
  simp [recordDataset, hp, hne, hop]

theorem recordDataset_open_ok_spec (args : Args) (env : Env) (fs0 : FS)
    (cams : List (String × ℤ))
    (hp : parseCameras args.camera = .ok cams) (hne : cams ≠ [])
    (hop : (openPhase env.openOk cams).2 = .ok ()) :
    (recordDataset args env fs0).fs
      = (runEpisodes args env cams.length args.episodes 0 (metaPhase args cams fs0).1).1
    ∧ ((recordDataset args env fs0).result = .diverged ∨
       (recordDataset args env fs0).events
         = (metaPhase args cams fs0).2 ++ (openPhase env.openOk cams).1
             ++ cams.map (fun c => Event.releaseCam c.2)) := by
  simp only [recordDataset, hp, if_neg hne, hop]
  rcases hr : (runEpisodes args env cams.length args.episodes 0
      (metaPhase args cams fs0).1).2 with _ | e | _ <;> simp [hr]

/-! ## Claims about the whole run -/

/-- C2 (counterexample): with cameras `a=0` and `b=1` where device `0`
opens but device `1` does not, the run aborts fatally after having
opened camera `a`, yet no `release` ever happens: the open loop sits
before the `try`, so its failures bypass the `finally` cleanup.  This
refutes the claim that every already-opened camera is released before
aborting. -/
theorem c2_counterexample :
    (recordDataset argsTwoCams envOpenFailAt1 fsEmpty).result
      = .err "cannot open camera"
    ∧ Event.openCam 0 ∈ (recordDataset argsTwoCams envOpenFailAt1 fsEmpty).events
    ∧ Event.releaseCam 0 ∉ (recordDataset argsTwoCams envOpenFailAt1 fsEmpty).events :=
  ⟨by decide, by decide, by decide⟩

/-- C2 (amended): if opening any configured camera fails, the run
aborts fatally but releases no camera at all (not even those already
opened, since the open loop precedes the `try`/`finally`); when every
camera opens, all cameras are released on normal completion and on any
error raised inside the episode loop (every ending other than the
loop never returning). -/
theorem c2_release_behaviour (args : Args) (env : Env) (fs0 : FS)
    (cams : List (String × ℤ))
    (hp : parseCameras args.camera = .ok cams) (hne : cams ≠ []) :
    ((∃ c ∈ cams, env.openOk c.2 = false) →
      (recordDataset args env fs0).result = .err "cannot open camera"
      ∧ ∀ ev ∈ (recordDataset args env fs0).events, ¬ ev.isRelease)
    ∧ ((∀ c ∈ cams, env.openOk c.2 = true) →
      (recordDataset args env fs0).result ≠ .diverged →
      ∀ c ∈ cams, Event.releaseCam c.2 ∈ (recordDataset args env fs0).events) := by
  constructor
  · intro hfail
    have hop := openPhase_fail env.openOk cams hfail
    rw [recordDataset_open_fail_spec args env fs0 cams "cannot open camera" hp hne hop]
    refine ⟨rfl, ?_⟩
    intro ev hev
    rcases List.mem_append.mp hev with h1 | h1
    · exact isMeta_not_isRelease ev (metaPhase_events_meta args cams fs0 ev h1)
    · exact isOpen_not_isRelease ev (openPhase_events_open env.openOk cams ev h1)
  · intro hok hnd c hc
    have hop := openPhase_all_ok env.openOk cams hok
    rcases (recordDataset_open_ok_spec args env fs0 cams hp hne hop).2 with hd | hev
    · exact absurd hd hnd
    · rw [hev]
      exact List.mem_append.mpr (Or.inr (List.mem_map.mpr ⟨c, hc, rfl⟩))

theorem c2_witness :
    (recordDataset argsTwoCams envOpenFailAt1 fsEmpty).result
      = .err "cannot open camera" :=
  ((c2_release_behaviour argsTwoCams envOpenFailAt1 fsEmpty [("a", 0), ("b", 1)]
      rfl (by decide)).1 ⟨("b", 1), by decide, rfl⟩).1

/-- C6: a rerun never deletes, truncates or rewrites existing lines of
`tasks.jsonl`, `episodes.jsonl` or `episodes_stats.jsonl` — an existing
tasks file is preserved verbatim and the episode logs only grow by a
suffix — while `tasks.jsonl` is created only when absent and
`info.json` is rewritten on every invocation that reaches the metadata
phase (i.e. whose camera configuration parses to a nonempty set). -/
theorem c6_append_only_metadata (args : Args) (env : Env) (fs0 : FS) :
    (∀ l, fs0.tasks = some l → (recordDataset args env fs0).fs.tasks = some l)
    ∧ (fs0.tasks = none →
        (recordDataset args env fs0).fs.tasks = none ∨
        (recordDataset args env fs0).fs.tasks = some [(0, args.task)])
    ∧ (∃ suf, (recordDataset args env fs0).fs.episodes.getD []
        = fs0.episodes.getD [] ++ suf)
    ∧ (∃ suf, (recordDataset args env fs0).fs.episodesStats.getD []
        = fs0.episodesStats.getD [] ++ suf)
    ∧ (∀ cams, parseCameras args.camera = .ok cams → cams ≠ [] →
        (recordDataset args env fs0).fs.info = some args.fps) := by
  cases hp : parseCameras args.camera with
  | error e =>
    rw [recordDataset_parse_error args env fs0 e hp]
    refine ⟨fun l hl => hl, fun h => Or.inl h, ⟨[], by simp⟩, ⟨[], by simp⟩, ?_⟩
    intro cams hc _
    exact absurd hc (by simp)
  | ok cams =>
    by_cases hne : cams = []
    · subst hne
      rw [recordDataset_no_cams args env fs0 hp]
      refine ⟨fun l hl => hl, fun h => Or.inl h, ⟨[], by simp⟩, ⟨[], by simp⟩, ?_⟩
      intro cams' hc hne'
      injection hc with hc
      exact absurd hc.symm hne'
    · cases hop : (openPhase env.openOk cams).2 with
      | error e =>
        rw [recordDataset_open_fail_spec args env fs0 cams e hp hne hop]
        refine ⟨?_, ?_, ?_, ?_, ?_⟩
        · intro l hl; exact metaPhase_tasks_some args cams fs0 l hl
        · intro h0; exact Or.inr (metaPhase_tasks_none args cams fs0 h0)
        · exact ⟨[], by rw [metaPhase_episodes]; simp⟩
        · exact ⟨[], by rw [metaPhase_episodesStats]; simp⟩
        · intro cams' _ _; exact metaPhase_info args cams fs0
      | ok u =>
        cases u
        rcases recordDataset_open_ok_spec args env fs0 cams hp hne hop with ⟨hfs, _⟩
        rw [hfs]
        rcases runEpisodes_fs args env cams.length args.episodes 0
            (metaPhase args cams fs0).1 with ⟨ht, hi, ⟨sE, hE⟩, ⟨sS, hS⟩⟩
        refine ⟨?_, ?_, ?_, ?_, ?_⟩
        · intro l hl; rw [ht]; exact metaPhase_tasks_some args cams fs0 l hl
        · intro h0; exact Or.inr (by rw [ht]; exact metaPhase_tasks_none args cams fs0 h0)
        · exact ⟨sE, by rw [hE, metaPhase_episodes]⟩
        · exact ⟨sS, by rw [hS, metaPhase_episodesStats]⟩
        · intro cams' _ _; rw [hi]; exact metaPhase_info args cams fs0

theorem c6_witness :
    (recordDataset argsDefault envAllFail fsPre).fs.tasks = some [(0, "old task")]
    ∧ (recordDataset argsDefault envAllFail fsPre).fs.info = some argsDefault.fps :=
  ⟨(c6_append_only_metadata argsDefault envAllFail fsPre).1 [(0, "old task")] rfl,
   (c6_append_only_metadata argsDefault envAllFail fsPre).2.2.2.2
     [("front", 0)] rfl (by decide)⟩

/-- C8: a camera spec without `=` or an empty camera set makes the run
fail with a configuration error before anything at all happens — in
particular before any camera open is attempted (the event trace is
empty). -/
theorem c8_config_error_before_open (args : Args) (env : Env) (fs0 : FS)
    (h : (∃ l, args.camera = some l ∧ ∃ spec ∈ l, '=' ∉ spec.toList)
       ∨ parseCameras args.camera = .ok []) :
    (∃ e, (recordDataset args env fs0).result = .err e)
    ∧ (recordDataset args env fs0).events = [] := by
  rcases h with ⟨l, hl, hbad⟩ | hempty
  · have hperr : ∃ e, parseCameras args.camera = .error e := by
      rw [hl]
      exact parseCamerasGo_malformed l [] hbad
    rcases hperr with ⟨e, he⟩
    rw [recordDataset_parse_error args env fs0 e he]
    exact ⟨⟨e, rfl⟩, rfl⟩
  · rw [recordDataset_no_cams args env fs0 hempty]
    exact ⟨⟨_, rfl⟩, rfl⟩

theorem c8_witness :
    (recordDataset argsBadSpec envAllFail fsEmpty).events = [] :=
  (c8_config_error_before_open argsBadSpec envAllFail fsEmpty
    (Or.inl ⟨["front0"], rfl, "front0", List.mem_singleton.mpr rfl, by decide⟩)).2

/-- C10: when the camera configuration parses but some camera fails to
open, the aborted run has already created the directories and written
`info.json` (and `tasks.jsonl` when it was absent): every event before
the open attempts is a metadata event, every event after is an open
attempt, and the final file system carries the fresh metadata — the run
is not atomic with respect to a camera-open failure. -/
theorem c10_metadata_before_opens (args : Args) (env : Env) (fs0 : FS)
    (cams : List (String × ℤ))
    (hp : parseCameras args.camera = .ok cams) (hne : cams ≠ [])
    (hfail : ∃ c ∈ cams, env.openOk c.2 = false) :
    (recordDataset args env fs0).result = .err "cannot open camera"
    ∧ (recordDataset args env fs0).fs.info = some args.fps
    ∧ (fs0.tasks = none →
        (recordDataset args env fs0).fs.tasks = some [(0, args.task)])
    ∧ ∃ evs1 evs2, (recordDataset args env fs0).events = evs1 ++ evs2
        ∧ Event.writeInfo ∈ evs1
        ∧ (∀ ev ∈ evs1, ev.isMeta)
        ∧ (∀ ev ∈ evs2, ev.isOpen) := by
  have hop := openPhase_fail env.openOk cams hfail
  rw [recordDataset_open_fail_spec args env fs0 cams "cannot open camera" hp hne hop]
  exact ⟨rfl, metaPhase_info args cams fs0,
    fun ht => metaPhase_tasks_none args cams fs0 ht,
    (metaPhase args cams fs0).2, (openPhase env.openOk cams).1, rfl,
    metaPhase_events_writeInfo args cams fs0,
    metaPhase_events_meta args cams fs0,
    openPhase_events_open env.openOk cams⟩

theorem c10_witness :
    (recordDataset argsTwoCams envOpenFailAt1 fsEmpty).fs.info
      = some argsTwoCams.fps :=
  (c10_metadata_before_opens argsTwoCams envOpenFailAt1 fsEmpty
    [("a", 0), ("b", 1)] rfl (by decide) ⟨("b", 1), by decide, rfl⟩).2.1

end CamRec
